import Mathlib

set_option maxRecDepth 1000000

/-!
Verification development for the SMS finance tracker service (`src/main.py`).

The service admits bank SMS notifications over HTTP (`sms_webhook`), derives a
deterministic id per admission (`make_id`, SHA-256 of `sender|body|ts`
truncated to 16 hex characters), parses amount/currency/type from the SMS body
(`parse_amount`, `detect_currency`, `parse_sber`), appends rows to a
spreadsheet-backed ledger, and aggregates windowed income/expense reports
(`calc_report`).

Modelling conventions:
  * Python `float` values carry exact decimal literals here, so they are
    modelled as exact rationals (`ℚ`); Python float rounding is not modelled.
  * The spreadsheet store is modelled as a list of rows of `Cell` values which
    `read_all_rows` returns exactly as appended (the store is an external
    collaborator assumed faithful).
  * Machine-level details (HTTP transport, Google/Telegram I/O) are out of
    scope; `sms_webhook` and `calc_report` are modelled as pure functions of
    the ledger snapshot, the wall clock instant and the request payload.
-/

namespace SmsTracker

/-! ## Bytes and SHA-256 (for `make_id`) -/

/-- UTF-8 encoding of a single character, as a list of byte values. -/
def utf8EncodeChar (c : Char) : List Nat :=
  let n := c.toNat
  if n < 0x80 then [n]
  else if n < 0x800 then
    [0xC0 ||| (n >>> 6), 0x80 ||| (n &&& 0x3F)]
  else if n < 0x10000 then
    [0xE0 ||| (n >>> 12), 0x80 ||| ((n >>> 6) &&& 0x3F), 0x80 ||| (n &&& 0x3F)]
  else
    [0xF0 ||| (n >>> 18), 0x80 ||| ((n >>> 12) &&& 0x3F),
     0x80 ||| ((n >>> 6) &&& 0x3F), 0x80 ||| (n &&& 0x3F)]

/-- UTF-8 bytes of a string (Python `str.encode("utf-8")`). -/
def utf8Bytes (s : String) : List Nat := s.data.flatMap utf8EncodeChar

/-- Truncate to a 32-bit word. -/
def w32 (n : Nat) : Nat := n % 4294967296

/-- 32-bit right rotation. -/
def rotr (k n : Nat) : Nat := w32 ((n >>> k) ||| (n <<< (32 - k)))

def shaCh (x y z : Nat) : Nat := (x &&& y) ^^^ ((4294967295 ^^^ x) &&& z)

def shaMaj (x y z : Nat) : Nat := (x &&& y) ^^^ (x &&& z) ^^^ (y &&& z)

def bigSigma0 (x : Nat) : Nat := rotr 2 x ^^^ rotr 13 x ^^^ rotr 22 x

def bigSigma1 (x : Nat) : Nat := rotr 6 x ^^^ rotr 11 x ^^^ rotr 25 x

def smallSigma0 (x : Nat) : Nat := rotr 7 x ^^^ rotr 18 x ^^^ (x >>> 3)

def smallSigma1 (x : Nat) : Nat := rotr 17 x ^^^ rotr 19 x ^^^ (x >>> 10)

/-- The 64 SHA-256 round constants. -/
def sha256K : List Nat :=
  [1116352408, 1899447441, 3049323471, 3921009573, 961987163, 1508970993, 2453635748, 2870763221,
   3624381080, 310598401, 607225278, 1426881987, 1925078388, 2162078206, 2614888103, 3248222580,
   3835390401, 4022224774, 264347078, 604807628, 770255983, 1249150122, 1555081692, 1996064986,
   2554220882, 2821834349, 2952996808, 3210313671, 3336571891, 3584528711, 113926993, 338241895,
   666307205, 773529912, 1294757372, 1396182291, 1695183700, 1986661051, 2177026350, 2456956037,
   2730485921, 2820302411, 3259730800, 3345764771, 3516065817, 3600352804, 4094571909, 275423344,
   430227734, 506948616, 659060556, 883997877, 958139571, 1322822218, 1537002063, 1747873779,
   1955562222, 2024104815, 2227730452, 2361852424, 2428436474, 2756734187, 3204031479, 3329325298]

/-- Big-endian 8-byte encoding of a natural number. -/
def be64 (n : Nat) : List Nat :=
  [(n >>> 56) &&& 255, (n >>> 48) &&& 255, (n >>> 40) &&& 255, (n >>> 32) &&& 255,
   (n >>> 24) &&& 255, (n >>> 16) &&& 255, (n >>> 8) &&& 255, n &&& 255]

/-- SHA-256 padding: append 0x80, zeros, then the 64-bit big-endian bit length. -/
def shaPad (msg : List Nat) : List Nat :=
  let z := (64 - (msg.length + 9) % 64) % 64
  msg ++ [0x80] ++ List.replicate z 0 ++ be64 (8 * msg.length)

/-- Split a byte list into chunks of `64` (fuel-driven; fuel bounds recursion depth). -/
def chunks64 (fuel : Nat) (l : List Nat) : List (List Nat) :=
  match fuel, l with
  | _, [] => []
  | 0, _ => [l]
  | fuel + 1, l => l.take 64 :: chunks64 fuel (l.drop 64)

/-- Group bytes into big-endian 32-bit words. -/
def wordsOfBytesBE : List Nat → List Nat
  | a :: b :: c :: d :: rest =>
      (((a <<< 8 ||| b) <<< 8 ||| c) <<< 8 ||| d) :: wordsOfBytesBE rest
  | _ => []

/-- Big-endian 4-byte decomposition of a 32-bit word. -/
def bytesOfWordBE (n : Nat) : List Nat :=
  [(n >>> 24) &&& 255, (n >>> 16) &&& 255, (n >>> 8) &&& 255, n &&& 255]

/-- Extend the 16 message words by `k` scheduled words; `wRev` is the words so
far, most recent first. Returns the full schedule in order. -/
def shaSchedule : Nat → List Nat → List Nat
  | 0, wRev => wRev.reverse
  | k + 1, wRev =>
      let nw := w32 (smallSigma1 (wRev.getD 1 0) + wRev.getD 6 0 +
                     smallSigma0 (wRev.getD 14 0) + wRev.getD 15 0)
      shaSchedule k (nw :: wRev)

/-- SHA-256 working state: eight 32-bit words. -/
structure Sha8 where
  a : Nat
  b : Nat
  c : Nat
  d : Nat
  e : Nat
  f : Nat
  g : Nat
  h : Nat
deriving Repr, DecidableEq

/-- One SHA-256 compression round with round constant `k` and word `w`. -/
def shaRound (s : Sha8) (kw : Nat × Nat) : Sha8 :=
  let t1 := w32 (s.h + bigSigma1 s.e + shaCh s.e s.f s.g + kw.1 + kw.2)
  let t2 := w32 (bigSigma0 s.a + shaMaj s.a s.b s.c)
  ⟨w32 (t1 + t2), s.a, s.b, s.c, w32 (s.d + t1), s.e, s.f, s.g⟩

/-- Process one 64-byte chunk. -/
def shaChunk (hs : Sha8) (chunk : List Nat) : Sha8 :=
  let ws := shaSchedule 48 (wordsOfBytesBE chunk).reverse
  let s := (sha256K.zip ws).foldl shaRound hs
  ⟨w32 (hs.a + s.a), w32 (hs.b + s.b), w32 (hs.c + s.c), w32 (hs.d + s.d),
   w32 (hs.e + s.e), w32 (hs.f + s.f), w32 (hs.g + s.g), w32 (hs.h + s.h)⟩

/-- SHA-256 initial hash value. -/
def sha256H0 : Sha8 :=
  ⟨1779033703, 3144134277, 1013904242, 2773480762,
   1359893119, 2600822924, 528734635, 1541459225⟩

/-- SHA-256 digest of a byte list, as a list of 32 bytes. -/
def sha256Bytes (msg : List Nat) : List Nat :=
  let padded := shaPad msg
  let hs := (chunks64 padded.length padded).foldl shaChunk sha256H0
  [hs.a, hs.b, hs.c, hs.d, hs.e, hs.f, hs.g, hs.h].flatMap bytesOfWordBE

/-- Lowercase hexadecimal digit. -/
def hexChar (n : Nat) : Char :=
  if n < 10 then Char.ofNat (48 + n) else Char.ofNat (87 + n)

/-- Lowercase hex rendering of a byte list (Python `hexdigest()`). -/
def hexOfBytes (l : List Nat) : List Char :=
  l.flatMap fun b => [hexChar (b / 16), hexChar (b % 16)]

/-- Model of `make_id` from `src/main.py`: SHA-256 of `"{sender}|{body}|{ts}"` (UTF-8),
hex digest truncated to its first 16 characters. -/
def make_id (sender body ts : String) : String :=
  String.mk ((hexOfBytes (sha256Bytes (utf8Bytes (sender ++ "|" ++ body ++ "|" ++ ts)))).take 16)

/-! ## Python string helpers -/

/-- ASCII decimal digit (model of regex `\d`; the full-Unicode digit set of
Python's `re` is restricted to ASCII here). -/
def isPyDigit (c : Char) : Bool := '0' ≤ c && c ≤ '9'

/-- Whitespace, as recognized by Python's `str.strip`, `float`, and regex `\s`
(common subset of the Unicode whitespace set). -/
def isPySpace (c : Char) : Bool :=
  c == ' ' || c == '\t' || c == '\n' || c == '\r' ||
  c == '\u000B' || c == '\u000C' || c == '\u0085' || c == '\u00A0' ||
  (0x2000 ≤ c.toNat && c.toNat ≤ 0x200A) ||
  c == '\u2028' || c == '\u2029' || c == '\u202F' || c == '\u205F' || c == '\u3000'

/-- Lowercasing for the alphabets the service touches: ASCII `A`-`Z` and
Cyrillic `А`-`Я`, `Ё` (model of `str.lower` / case-insensitive regex flags). -/
def pyLowerChar (c : Char) : Char :=
  let n := c.toNat
  if 65 ≤ n && n ≤ 90 then Char.ofNat (n + 32)
  else if 0x410 ≤ n && n ≤ 0x42F then Char.ofNat (n + 32)
  else if n == 0x401 then Char.ofNat 0x451
  else c

/-- Uppercasing for the same alphabets (model of `str.upper`). -/
def pyUpperChar (c : Char) : Char :=
  let n := c.toNat
  if 97 ≤ n && n ≤ 122 then Char.ofNat (n - 32)
  else if 0x430 ≤ n && n ≤ 0x44F then Char.ofNat (n - 32)
  else if n == 0x451 then Char.ofNat 0x401
  else c

/-- Python `str.lower`. -/
def pyLower (s : String) : String := String.mk (s.data.map pyLowerChar)

/-- Python `str.upper`. -/
def pyUpper (s : String) : String := String.mk (s.data.map pyUpperChar)

/-- Python `str.strip()` with no argument: remove leading and trailing whitespace. -/
def pyStrip (s : String) : String :=
  String.mk (((s.data.dropWhile isPySpace).reverse.dropWhile isPySpace).reverse)

/-- Does `l` start with `pat`? -/
def startsWithList : List Char → List Char → Bool
  | [], _ => true
  | _ :: _, [] => false
  | p :: ps, c :: cs => p == c && startsWithList ps cs

/-- Python's `pat in s` substring test, on character lists. -/
def containsSubList (pat : List Char) : List Char → Bool
  | [] => startsWithList pat []
  | c :: cs => startsWithList pat (c :: cs) || containsSubList pat cs

/-- Python's `pat in s` substring test. -/
def containsSub (pat s : String) : Bool := containsSubList pat.data s.data

/-! ## Python `float(str)` (exact-rational model)

Model of `float(value_str)`: optional surrounding whitespace, optional sign,
`digits[.digits]` or `.digits`, optional decimal exponent. `inf`/`nan` and
underscore separators are not modelled (none of the strings the service builds
contain them); the result is the exact rational denoted by the literal. -/

/-- Consume a maximal run of ASCII digits; return value, digit count, rest. -/
def takeDigits : List Char → Nat → Nat → Nat × Nat × List Char
  | [], v, n => (v, n, [])
  | c :: cs, v, n =>
      if isPyDigit c then takeDigits cs (10 * v + (c.toNat - 48)) (n + 1)
      else (v, n, c :: cs)

/-- Parse an optional `+`/`-` sign; return `true` for negative, plus rest. -/
def takeSign : List Char → Bool × List Char
  | '+' :: cs => (false, cs)
  | '-' :: cs => (true, cs)
  | cs => (false, cs)

/-- Model of `float(s)` on the literal subset described above; `none` models
`ValueError` / `TypeError`. -/
def pyFloatOfString (s : String) : Option ℚ :=
  let l := (s.data.dropWhile isPySpace).reverse.dropWhile isPySpace |>.reverse
  let (neg, l) := takeSign l
  let (vi, ci, l) := takeDigits l 0 0
  let (vf, cf, l) :=
    match l with
    | '.' :: rest => takeDigits rest 0 0
    | _ => (0, 0, l)
  if ci + cf == 0 then none
  else
    let mantissa : ℚ := (vi : ℚ) + (vf : ℚ) / ((10 : ℚ) ^ cf)
    let withExp : Option ℚ :=
      match l with
      | [] => some mantissa
      | e :: rest =>
          if e == 'e' || e == 'E' then
            let (eneg, rest) := takeSign rest
            let (ve, ce, rest) := takeDigits rest 0 0
            if ce == 0 || rest ≠ [] then none
            else some (if eneg then mantissa / (10 : ℚ) ^ ve else mantissa * (10 : ℚ) ^ ve)
          else none
    withExp.map fun q => if neg then -q else q

/-! ## Python `datetime` model

A `datetime.datetime` value is modelled by its wall-clock reading in
microseconds since 0001-01-01 00:00:00 (`naiveUs`) plus its `utcoffset()` in
microseconds (`tzOffsetUs`; `none` models a timezone-naive value). -/

structure PyDateTime where
  naiveUs : Int
  tzOffsetUs : Option Int
deriving Repr, DecidableEq

def usPerDay : Int := 86400000000

def isLeapYear (y : Nat) : Bool := (y % 4 == 0 && y % 100 != 0) || y % 400 == 0

def daysInMonth (y m : Nat) : Nat :=
  if m == 2 then (if isLeapYear y then 29 else 28)
  else if m == 4 || m == 6 || m == 9 || m == 11 then 30 else 31

def daysBeforeMonth (y m : Nat) : Nat :=
  (List.range (m - 1)).foldl (fun acc i => acc + daysInMonth y (i + 1)) 0

/-- Days from 0001-01-01 to year `y`, month `m`, day `d` in the proleptic
Gregorian calendar (`datetime.toordinal() - 1`). -/
def dateOrdinal (y m d : Nat) : Nat :=
  365 * (y - 1) + (y - 1) / 4 - (y - 1) / 100 + (y - 1) / 400 + daysBeforeMonth y m + (d - 1)

/-- Inverse of `dateOrdinal`: calendar date of day number `ord` (days since
0001-01-01), by the standard era decomposition of the Gregorian calendar. -/
def civilFromOrdinal (ord : Nat) : Nat × Nat × Nat :=
  let z := ord + 306
  let era := z / 146097
  let doe := z % 146097
  let yoe := (doe - doe / 1460 + doe / 36524 - doe / 146096) / 365
  let y := yoe + era * 400
  let doy := doe - (365 * yoe + yoe / 4 - yoe / 100)
  let mp := (5 * doy + 2) / 153
  let d := doy - (153 * mp + 2) / 5 + 1
  let m := if mp < 10 then mp + 3 else mp - 9
  (if m ≤ 2 then y + 1 else y, m, d)

/-- Consume exactly `n` ASCII digits, returning their value and the rest. -/
def takeDigitsN : Nat → Nat → List Char → Option (Nat × List Char)
  | 0, acc, l => some (acc, l)
  | n + 1, acc, c :: l =>
      if isPyDigit c then takeDigitsN n (10 * acc + (c.toNat - 48)) l else none
  | _ + 1, _, [] => none

/-- Consume an expected character. -/
def expectChar (c : Char) : List Char → Option (List Char)
  | x :: l => if x == c then some l else none
  | [] => none

/-- Parse `[.ffffff]` (1 to 6 fractional-second digits), returning microseconds. -/
def parseFractionUs (l : List Char) : Option (Nat × List Char) :=
  match l with
  | '.' :: rest =>
      let (v, n, rest) := takeDigits rest 0 0
      if 1 ≤ n && n ≤ 6 then some (v * 10 ^ (6 - n), rest) else none
  | _ => some (0, l)

/-- Parse a trailing UTC offset: empty (naive), `Z`/`z`, or `±HH:MM`.
Returns the offset in microseconds (`none` in the pair = naive). -/
def parseTzTail (l : List Char) : Option (Option Int) :=
  match l with
  | [] => some none
  | 'Z' :: [] => some (some 0)
  | 'z' :: [] => some (some 0)
  | c :: rest =>
      if c == '+' || c == '-' then do
        let (hh, rest) ← takeDigitsN 2 0 rest
        let rest ← expectChar ':' rest
        let (mm, rest) ← takeDigitsN 2 0 rest
        if rest = [] && mm ≤ 59 && hh * 60 + mm < 24 * 60 then
          let total : Int := (hh * 3600 + mm * 60 : Nat) * 1000000
          some (some (if c == '-' then -total else total))
        else none
      else none

/-- Model of Python `datetime.fromisoformat` on the dialect the service uses:
`YYYY-MM-DD`, optionally followed by a single separator character and a time
`HH[:MM[:SS[.ffffff]]]`, optionally followed by `Z` or a `±HH:MM` offset.
`none` models `ValueError`. (Python ≥ 3.11 also accepts compact digit-only
forms and offsets with seconds; those are outside this model.) -/
def fromisoformat (s : String) : Option PyDateTime := do
  let l := s.data
  let (y, l) ← takeDigitsN 4 0 l
  let l ← expectChar '-' l
  let (mo, l) ← takeDigitsN 2 0 l
  let l ← expectChar '-' l
  let (d, l) ← takeDigitsN 2 0 l
  if 1 ≤ y && 1 ≤ mo && mo ≤ 12 && 1 ≤ d && d ≤ daysInMonth y mo then
    let dateUs : Int := (dateOrdinal y mo d : Int) * usPerDay
    match l with
    | [] => some ⟨dateUs, none⟩
    | _ :: rest => do
        let (h, rest) ← takeDigitsN 2 0 rest
        let (mi, rest) ←
          match rest with
          | ':' :: rest' => takeDigitsN 2 0 rest'
          | _ => some (0, rest)
        let (ss, us, rest) ←
          match rest with
          | ':' :: rest' => do
              let (ss, rest'') ← takeDigitsN 2 0 rest'
              let (us, rest3) ← parseFractionUs rest''
              some (ss, us, rest3)
          | _ => some (0, 0, rest)
        if h ≤ 23 && mi ≤ 59 && ss ≤ 59 then
          let tz ← parseTzTail rest
          some ⟨dateUs + ((h * 3600 + mi * 60 + ss : Nat) * 1000000 + us : Nat), tz⟩
        else none
  else none

/-- Python `>=` on datetimes: `none` models the `TypeError` raised when
comparing an offset-naive and an offset-aware value. -/
def pyDateTimeGE (a b : PyDateTime) : Option Bool :=
  match a.tzOffsetUs, b.tzOffsetUs with
  | some x, some y => some (decide (a.naiveUs - x ≥ b.naiveUs - y))
  | none, none => some (decide (a.naiveUs ≥ b.naiveUs))
  | _, _ => none

/-- Python `t - timedelta(days=days)`. -/
def pySubDays (t : PyDateTime) (days : Nat) : PyDateTime :=
  { t with naiveUs := t.naiveUs - (days : Int) * usPerDay }

/-- Decimal rendering of `n`, left-padded with zeros to width `w`. -/
def padNum (w n : Nat) : String :=
  let ds := Nat.toDigits 10 n
  String.mk (List.replicate (w - ds.length) '0' ++ ds)

/-- Model of `datetime.isoformat()` (microsecond part omitted when zero, as in
Python; offset rendered as `±HH:MM`). Valid for the year range 1..9999, which
every value the service constructs satisfies. -/
def pyIsoformat (t : PyDateTime) : String :=
  let totalUs := t.naiveUs.toNat
  let ord := totalUs / 86400000000
  let rem := totalUs % 86400000000
  let c := civilFromOrdinal ord
  let h := rem / 3600000000
  let mi := rem / 60000000 % 60
  let ss := rem / 1000000 % 60
  let us := rem % 1000000
  padNum 4 c.1 ++ "-" ++ padNum 2 c.2.1 ++ "-" ++ padNum 2 c.2.2 ++ "T" ++
  padNum 2 h ++ ":" ++ padNum 2 mi ++ ":" ++ padNum 2 ss ++
  (if us == 0 then "" else "." ++ padNum 6 us) ++
  (match t.tzOffsetUs with
   | none => ""
   | some off =>
       let mTot := off.natAbs / 60000000
       (if off < 0 then "-" else "+") ++ padNum 2 (mTot / 60) ++ ":" ++ padNum 2 (mTot % 60))

/-- Convenience: the aware UTC instant at `(y, m, d, h, mi, ss, us)`, as built
by `datetime(..., tzinfo=timezone.utc)` / `datetime.now(timezone.utc)`. -/
def utcInstant (y mo d h mi ss us : Nat) : PyDateTime :=
  ⟨(dateOrdinal y mo d : Int) * usPerDay + ((h * 3600 + mi * 60 + ss) * 1000000 + us : Nat),
   some 0⟩

/-! ## The SMS regexes of `src/main.py`

Each concrete `re.search` call of the source is modelled by a hand-rolled
matcher with the same leftmost-position scan and greedy/lazy backtracking
semantics as Python's `re` on that fixed pattern. Case-insensitivity (`re.I`)
is modelled by `pyLowerChar` folding on both sides. -/

/-- Case-insensitive literal match: does `l` start with token `pat`
(given lowercase)? Returns the rest on success. -/
def matchTokenCI : List Char → List Char → Option (List Char)
  | [], l => some l
  | p :: ps, c :: cs => if pyLowerChar c == p then matchTokenCI ps cs else none
  | _ :: _, [] => none

/-- The currency alternation `(?:р|rub|₽|eur|€|usd|\$)` of `parse_amount`. -/
def currencyTokens : List (List Char) :=
  [['р'], ['r', 'u', 'b'], ['₽'], ['e', 'u', 'r'], ['€'], ['u', 's', 'd'], ['$']]

/-- Does one of the currency tokens match at this position? -/
def matchCurrency (l : List Char) : Bool :=
  currencyTokens.any fun t => (matchTokenCI t l).isSome

/-- Pattern piece `\s*` then the currency alternation (the suffix of `parse_amount`'s first
pattern; currency tokens never start with whitespace, so maximal munch of
`\s*` is exact). -/
def matchAmountSuffix (l : List Char) : Bool :=
  matchCurrency (l.dropWhile isPySpace)

/-- The thousands-group separators `[  ]` of `parse_amount`. -/
def isGroupSep (c : Char) : Bool := c == ' ' || c == '\u00A0'

/-- Pattern piece `(?:[.,]\d{1,2})?` (greedy: two digits, one digit, then none) followed by
the suffix; `acc` is the capture built so far. Returns the full capture. -/
def matchDecimalsThen (acc : List Char) (l : List Char) : Option (List Char) :=
  (match l with
   | p :: d1 :: d2 :: rest =>
       if (p == '.' || p == ',') && isPyDigit d1 && isPyDigit d2 && matchAmountSuffix rest
       then some (acc ++ [p, d1, d2]) else none
   | _ => none) <|>
  (match l with
   | p :: d1 :: rest =>
       if (p == '.' || p == ',') && isPyDigit d1 && matchAmountSuffix rest
       then some (acc ++ [p, d1]) else none
   | _ => none) <|>
  (if matchAmountSuffix l then some acc else none)

/-- Pattern piece `(?:[  ]\d{3})*` (greedy, with backtracking) then decimals and
suffix; `fuel` bounds the recursion (the input length suffices). -/
def matchGroupsThen (fuel : Nat) (acc : List Char) (l : List Char) : Option (List Char) :=
  match fuel with
  | 0 => matchDecimalsThen acc l
  | fuel + 1 =>
      (match l with
       | s :: d1 :: d2 :: d3 :: rest =>
           if isGroupSep s && isPyDigit d1 && isPyDigit d2 && isPyDigit d3 then
             matchGroupsThen fuel (acc ++ [s, d1, d2, d3]) rest
           else none
       | _ => none) <|> matchDecimalsThen acc l

/-- The full first pattern of `parse_amount` anchored at this position:
`\d{1,3}` greedy (three digits, two, one), then groups/decimals/suffix.
Returns group 1 (the numeric part). -/
def matchAmountAt (l : List Char) : Option (List Char) :=
  (match l with
   | d1 :: d2 :: d3 :: rest =>
       if isPyDigit d1 && isPyDigit d2 && isPyDigit d3 then
         matchGroupsThen rest.length [d1, d2, d3] rest
       else none
   | _ => none) <|>
  (match l with
   | d1 :: d2 :: rest =>
       if isPyDigit d1 && isPyDigit d2 then matchGroupsThen rest.length [d1, d2] rest else none
   | _ => none) <|>
  (match l with
   | d1 :: rest => if isPyDigit d1 then matchGroupsThen rest.length [d1] rest else none
   | _ => none)

/-- Model of `re.search` of `parse_amount`'s first pattern: leftmost matching position. -/
def searchAmountCur : List Char → Option (List Char)
  | [] => none
  | c :: cs => matchAmountAt (c :: cs) <|> searchAmountCur cs

/-- The fallback pattern `(\d+\.\d+|\d+)` anchored at this position. Greedy
`\d+` never backtracks productively here: shortening the first run leaves a
digit where `\.` is required. -/
def matchNumberAt (l : List Char) : Option (List Char) :=
  match l with
  | c :: _ =>
      if isPyDigit c then
        let p := l.span isPyDigit
        match p.2 with
        | '.' :: rest2 =>
            let q := rest2.span isPyDigit
            if q.1 ≠ [] then some (p.1 ++ '.' :: q.1) else some p.1
        | _ => some p.1
      else none
  | [] => none

/-- Model of `re.search` of the fallback pattern. -/
def searchNumber : List Char → Option (List Char)
  | [] => none
  | c :: cs => matchNumberAt (c :: cs) <|> searchNumber cs

/-- Model of `parse_amount` from `src/main.py`: first pattern, else fallback; the
captured group has spaces and NBSPs removed and commas turned into dots, and
is then read by `float`. `none` models Python's `None`. -/
def parse_amount (text : String) : Option ℚ :=
  match searchAmountCur text.data <|> searchNumber text.data with
  | none => none
  | some group =>
      let cleaned := (group.filter fun c => !(c == ' ' || c == '\u00A0')).map
        fun c => if c == ',' then '.' else c
      pyFloatOfString (String.mk cleaned)

/-- Model of `detect_currency` from `src/main.py`. -/
def detect_currency (text : String) : String :=
  let t := pyLower text
  if containsSub "₽" t || containsSub "rub" t || containsSub "р." t || containsSub "р " t
  then "RUB"
  else if containsSub "€" t || containsSub "eur" t then "EUR"
  else if containsSub "$" t || containsSub "usd" t then "USD"
  else "RUB"

/-- Model of `re.search(kw1|kw2|..., text, re.I)` for a pure alternation of
literals: some keyword occurs as a substring, case-insensitively. -/
def hasKeywordCI (kws : List String) (text : String) : Bool :=
  let t := pyLower text
  kws.any fun kw => containsSub kw t

def debitKeywords : List String := ["покупка", "списание", "оплата", "перевод"]

def creditKeywords : List String := ["зачислен", "пополнение", "возврат"]

/-! ### Card-mask pattern `(?:карта|счет|счёта)\s*[*#xX]+(\d{4})` -/

def cardKeywords : List (List Char) := ["карта".data, "счет".data, "счёта".data]

def isMaskChar (c : Char) : Bool := c == '*' || c == '#' || pyLowerChar c == 'x'

/-- After a card keyword: `\s*` then `[*#xX]+` then the four captured digits
(the character classes are disjoint, so maximal munch is exact). -/
def matchCardTail (l : List Char) : Option (List Char) :=
  let l := l.dropWhile isPySpace
  let p := l.span isMaskChar
  if p.1 = [] then none
  else match p.2 with
    | d1 :: d2 :: d3 :: d4 :: _ =>
        if isPyDigit d1 && isPyDigit d2 && isPyDigit d3 && isPyDigit d4
        then some [d1, d2, d3, d4] else none
    | _ => none

/-- Try the card pattern anchored at this position (keywords in pattern order). -/
def matchCardAt (l : List Char) : Option (List Char) :=
  cardKeywords.foldr (fun kw acc => ((matchTokenCI kw l).bind matchCardTail) <|> acc) none

/-- Model of `re.search` of the card pattern: captured four digits at the leftmost
matching position. -/
def searchCard : List Char → Option (List Char)
  | [] => none
  | c :: cs => matchCardAt (c :: cs) <|> searchCard cs

/-! ### Merchant pattern
`(?:покупка|оплата|перевод)\s*(?:\d+[\.,]\d{2}р)?\s*([^.,\d]+?)\s*(?:Баланс|Доступно)` -/

def merchantKeywords : List (List Char) := ["покупка".data, "оплата".data, "перевод".data]

/-- The capture class `[^.,\d]`. -/
def isMerchChar (c : Char) : Bool := !(c == '.' || c == ',' || isPyDigit c)

/-- Terminator `(?:Баланс|Доступно)` (case-insensitive) at this position. -/
def merchTermAt (l : List Char) : Bool :=
  (matchTokenCI "баланс".data l).isSome || (matchTokenCI "доступно".data l).isSome

/-- After the capture: `\s*` then the terminator (terminators never start with
whitespace, so maximal munch is exact). -/
def merchTail (l : List Char) : Bool := merchTermAt (l.dropWhile isPySpace)

/-- The lazy capture `([^.,\d]+?)`: grow from one character until the tail
matches. -/
def merchCapture (acc : List Char) : List Char → Option (List Char)
  | c :: cs =>
      if isMerchChar c then
        if merchTail cs then some (acc ++ [c]) else merchCapture (acc ++ [c]) cs
      else none
  | [] => none

/-- The second `\s*` (greedy, backtracking against the capture class, which
also contains whitespace): munch `k` characters, largest `k` first. -/
def merchCaptureBack : Nat → List Char → Option (List Char)
  | 0, l => merchCapture [] l
  | k + 1, l => merchCapture [] (l.drop (k + 1)) <|> merchCaptureBack k l

def merchCapturePhase (l : List Char) : Option (List Char) :=
  merchCaptureBack (l.takeWhile isPySpace).length l

/-- The optional numeric group `(?:\d+[\.,]\d{2}р)?`: `none` when it does not
match here (greedy `\d+` cannot productively backtrack: shortening it leaves a
digit where `[\.,]` is required). -/
def merchOptNum (l : List Char) : Option (List Char) :=
  let p := l.span isPyDigit
  if p.1 = [] then none
  else match p.2 with
    | sep :: a :: b :: r :: rest =>
        if (sep == '.' || sep == ',') && isPyDigit a && isPyDigit b && pyLowerChar r == 'р'
        then some rest else none
    | _ => none

/-- After the keyword and the first `\s*` munch: optional numeric group
(greedy: try with it, then without), then the capture phase. -/
def merchAfterSpace (l : List Char) : Option (List Char) :=
  (match merchOptNum l with
   | some rest => merchCapturePhase rest
   | none => none) <|> merchCapturePhase l

/-- The first `\s*` (greedy, backtracking): munch `k` characters, largest
first. -/
def merchSpaceBack : Nat → List Char → Option (List Char)
  | 0, l => merchAfterSpace l
  | k + 1, l => merchAfterSpace (l.drop (k + 1)) <|> merchSpaceBack k l

/-- The merchant pattern anchored at this position; returns group 1. -/
def matchMerchantAt (l : List Char) : Option (List Char) :=
  merchantKeywords.foldr
    (fun kw acc =>
      ((matchTokenCI kw l).bind fun rest => merchSpaceBack (rest.takeWhile isPySpace).length rest)
      <|> acc)
    none

/-- Model of `re.search` of the merchant pattern. -/
def searchMerchant : List Char → Option (List Char)
  | [] => none
  | c :: cs => matchMerchantAt (c :: cs) <|> searchMerchant cs

/-- Model of `re.sub(r"\s+", " ", s)`: collapse whitespace runs to single spaces. -/
def collapseSpaces : Bool → List Char → List Char
  | _, [] => []
  | prevSpace, c :: cs =>
      if isPySpace c then
        if prevSpace then collapseSpaces true cs else ' ' :: collapseSpaces true cs
      else c :: collapseSpaces false cs

/-- The merchant post-processing of `parse_sber`:
`re.sub(r"\s+", " ", group.strip()).strip()[:80]`. -/
def cleanMerchant (g : List Char) : String :=
  let stripped := (g.dropWhile isPySpace).reverse.dropWhile isPySpace |>.reverse
  let collapsed := collapseSpaces false stripped
  let restripped := (collapsed.dropWhile isPySpace).reverse.dropWhile isPySpace |>.reverse
  String.mk (restripped.take 80)

/-! ### Balance pattern `(?:баланс|доступно)[:\s]*([\d\s .,]+)` -/

def isColonSpace (c : Char) : Bool := c == ':' || isPySpace c

/-- The capture class `[\d\s .,]`. -/
def isBalanceChar (c : Char) : Bool :=
  isPyDigit c || isPySpace c || c == '.' || c == ','

/-- Pattern piece `[:\s]*` (greedy, backtracking against the overlapping capture class):
munch `k` characters, largest first, then the greedy capture `(...)+`. -/
def balanceCaptureBack : Nat → List Char → Option (List Char)
  | 0, l => (if (l.takeWhile isBalanceChar) = [] then none else some (l.takeWhile isBalanceChar))
  | k + 1, l =>
      (if ((l.drop (k + 1)).takeWhile isBalanceChar) = [] then none
       else some ((l.drop (k + 1)).takeWhile isBalanceChar)) <|> balanceCaptureBack k l

/-- The balance pattern anchored at this position; returns group 1. -/
def matchBalanceAt (l : List Char) : Option (List Char) :=
  (match matchTokenCI "баланс".data l with
   | some rest => balanceCaptureBack (rest.takeWhile isColonSpace).length rest
   | none => none) <|>
  (match matchTokenCI "доступно".data l with
   | some rest => balanceCaptureBack (rest.takeWhile isColonSpace).length rest
   | none => none)

/-- Model of `re.search` of the balance pattern. -/
def searchBalance : List Char → Option (List Char)
  | [] => none
  | c :: cs => matchBalanceAt (c :: cs) <|> searchBalance cs

/-! ### `parse_sber` -/

/-- The typed record `parse_sber` produces (the `data` dict of the source). -/
structure ParsedSms where
  type : String
  amount : Option ℚ
  currency : String
  card_mask : Option String
  merchant : String
  balance_after : Option ℚ
deriving Repr, DecidableEq

/-- Model of `parse_sber` from `src/main.py`. -/
def parse_sber (text : String) : ParsedSms :=
  { type :=
      if hasKeywordCI debitKeywords text then "debit"
      else if hasKeywordCI creditKeywords text then "credit"
      else "undefined",
    amount := parse_amount text,
    currency := detect_currency text,
    card_mask := (searchCard text.data).map fun ds => "*" ++ String.mk ds,
    merchant := match searchMerchant text.data with
      | some g => cleanMerchant g
      | none => "Unknown",
    balance_after := (searchBalance text.data).bind fun g => parse_amount (String.mk g) }

/-! ## The ledger store

A stored cell is a string, a number, or `None` (the three value shapes
`append_row` writes); a row is a list of cells. `read_all_rows` is modelled as
returning exactly the appended rows. -/

inductive Cell where
  | str (s : String)
  | num (q : ℚ)
  | null
deriving Repr, DecidableEq

abbrev Row := List Cell

/-- The header row written by `sms_webhook` on first use. -/
def headerRow : Row :=
  [.str "id", .str "ts", .str "amount", .str "currency", .str "type", .str "card_mask",
   .str "merchant", .str "balance_after", .str "source", .str "raw_text"]

/-- Python `float(cell)`: numbers pass through, strings are parsed,
`float(None)` raises `TypeError` (`none`). -/
def pyFloatCell : Cell → Option ℚ
  | .num q => some q
  | .str s => pyFloatOfString s
  | .null => none

/-- Python `datetime.fromisoformat(cell)`: raises `TypeError` on non-strings. -/
def fromisoCell : Cell → Option PyDateTime
  | .str s => fromisoformat s
  | _ => none

/-! ## `sms_webhook` -/

/-- The request body of `POST /sms`. -/
structure SmsPayload where
  sender : String
  body : String
  received_at : Option String
deriving Repr, DecidableEq

/-- The observable outcome of `sms_webhook`: HTTP 403, the duplicate
response, HTTP 400 (amount not parseable), or the success response. -/
inductive SmsResult where
  | forbidden
  | duplicate (id : String)
  | badRequest
  | ok (id : String)
deriving Repr, DecidableEq

/-- The check `any(allowed.upper() in sender for allowed in ALLOWED_SENDERS if allowed)`
(`sender` is already stripped and uppercased by the caller). -/
def senderAllowed (allowedSenders : List String) (sender : String) : Bool :=
  allowedSenders.any fun allowed => allowed ≠ "" && containsSub (pyUpper allowed) sender

/-- Python `str.split(sep)` for a one-character separator: split at every
occurrence; an empty string yields `[""]`. `acc` is the current field,
reversed. -/
def pySplitChar (sep : Char) : List Char → List Char → List (List Char)
  | [], acc => [acc.reverse]
  | c :: cs, acc =>
      if c == sep then acc.reverse :: pySplitChar sep cs []
      else pySplitChar sep cs (c :: acc)

/-- The `ALLOWED_SENDERS` list: `os.environ.get("ALLOWED_SENDERS", "").split(",")`. -/
def allowedSendersOfEnv (env : Option String) : List String :=
  (pySplitChar ',' (env.getD "").data []).map String.mk

/-- The `data_rows` as computed in `sms_webhook`:
`all_rows[1:] if all_rows and all_rows[0] == header else all_rows`. -/
def webhookDataRows (allRows : List Row) : List Row :=
  match allRows with
  | first :: rest => if first = headerRow then rest else allRows
  | [] => []

/-- The set `existing_ids = {row[0] for row in data_rows if row}` (the set is modelled
as the list of first cells of the non-empty rows). -/
def existing_ids (dataRows : List Row) : List Cell :=
  dataRows.filterMap List.head?

def cellOfOptStr : Option String → Cell
  | none => .null
  | some s => .str s

def cellOfOptQ : Option ℚ → Cell
  | none => .null
  | some q => .num q

/-- The row `sms_webhook` appends for a parsed payload. -/
def newRowFor (msg_id ts : String) (amt : ℚ) (parsed : ParsedSms)
    (payload : SmsPayload) : Row :=
  [.str msg_id, .str ts, .num amt, .str parsed.currency, .str parsed.type,
   cellOfOptStr parsed.card_mask, .str parsed.merchant,
   cellOfOptQ parsed.balance_after, .str payload.sender, .str (pyStrip payload.body)]

/-- The timestamp `ts = payload.received_at or datetime.now(timezone.utc).isoformat()`
(Python `or`: an absent or empty `received_at` falls back to the clock). -/
def admTs (now : PyDateTime) (payload : SmsPayload) : String :=
  match payload.received_at with
  | some s => if s = "" then pyIsoformat now else s
  | none => pyIsoformat now

/-- The admission id `msg_id = make_id(payload.sender, payload.body, ts)`. -/
def admId (now : PyDateTime) (payload : SmsPayload) : String :=
  make_id payload.sender payload.body (admTs now payload)

/-- Model of `sms_webhook` from `src/main.py`, as a function of the allow-list, the
current store contents, the wall clock (`datetime.now(timezone.utc)`), and the
payload. Returns the response and the store contents afterwards. The Telegram
notification is external output and is not modelled. -/
def sms_webhook (allowedSenders : List String) (store : List Row) (now : PyDateTime)
    (payload : SmsPayload) : SmsResult × List Row :=
  let sender := pyUpper (pyStrip payload.sender)
  if !senderAllowed allowedSenders sender then (.forbidden, store)
  else
    let ts := admTs now payload
    let msg_id := admId now payload
    let data_rows := webhookDataRows store
    if Cell.str msg_id ∈ existing_ids data_rows then (.duplicate msg_id, store)
    else
      let parsed := parse_sber payload.body
      match parsed.amount with
      | none => (.badRequest, store)
      | some amt =>
          let new_row := newRowFor msg_id ts amt parsed payload
          let store1 := if store = [] then store ++ [headerRow] else store
          (.ok msg_id, store1 ++ [new_row])

/-! ## `calc_report` -/

/-- The three accumulators of `calc_report`'s loop. -/
structure Report where
  total_debit : ℚ
  total_credit : ℚ
  transactions_count : Nat
deriving Repr, DecidableEq

/-- The `data_rows` as computed in `calc_report`:
`all_rows[1:] if all_rows and all_rows[0][0] == 'id' else all_rows`.
`none` models the uncaught `IndexError` raised by `all_rows[0][0]` when the
first row is empty. -/
def reportDataRows (allRows : List Row) : Option (List Row) :=
  match allRows with
  | [] => some []
  | first :: rest =>
      match first.head? with
      | none => none
      | some c => some (if c = .str "id" then rest else first :: rest)

/-- The contribution of one stored row to the report accumulators: the body of
`calc_report`'s `for` loop, whose `try` block skips the row (zero
contribution) on any `ValueError`/`IndexError`/`TypeError`. -/
def rowDelta (start_date : PyDateTime) (row : Row) : Report :=
  if row.length < 5 then ⟨0, 0, 0⟩
  else
    match fromisoCell (row.getD 1 .null) with
    | none => ⟨0, 0, 0⟩
    | some t =>
        match pyDateTimeGE t start_date with
        | none => ⟨0, 0, 0⟩
        | some ge =>
            if ge then
              match pyFloatCell (row.getD 2 .null) with
              | none => ⟨0, 0, 0⟩
              | some amount =>
                  ⟨if row.getD 4 .null = .str "debit" then amount else 0,
                   if row.getD 4 .null = .str "credit" then amount else 0, 1⟩
            else ⟨0, 0, 0⟩

/-- Componentwise sum of report accumulators. -/
def addReport (x y : Report) : Report :=
  ⟨x.total_debit + y.total_debit, x.total_credit + y.total_credit,
   x.transactions_count + y.transactions_count⟩

/-- The accumulation loop of `calc_report` (each iteration adds the row's
contribution to the running accumulators). -/
def reportTotals (start_date : PyDateTime) (rows : List Row) : Report :=
  rows.foldl (fun acc r => addReport acc (rowDelta start_date r)) ⟨0, 0, 0⟩

/-- Model of `calc_report` from `src/main.py`, reduced to its computed aggregates (the
returned chat text is formatting of these three numbers).
`start_date = now - timedelta(days=days)`; `none` models the uncaught
`IndexError` of the header sniff on an empty first row. -/
def calc_report (allRows : List Row) (now : PyDateTime) (days : Nat) : Option Report :=
  (reportDataRows allRows).map (reportTotals (pySubDays now days))

/-! ## Derived notions used by the claims -/

/-- Sequential handling of a list of `POST /sms` requests (each request's
report is the state left by the previous one); `now` is the shared clock. -/
def runAdmissions (allowed : List String) (now : PyDateTime) :
    List Row → List SmsPayload → List Row
  | store, [] => store
  | store, p :: ps => runAdmissions allowed now (sms_webhook allowed store now p).2 ps

/-- An admissible in-window payload: allowed sender, parseable amount, and an
admission timestamp that parses and lies in the `days`-day report window
ending at `now`. -/
def admInWindow (allowed : List String) (now : PyDateTime) (days : Nat)
    (p : SmsPayload) : Bool :=
  senderAllowed allowed (pyUpper (pyStrip p.sender)) &&
  (parse_sber p.body).amount.isSome &&
  (match fromisoformat (admTs now p) with
   | some t => pyDateTimeGE t (pySubDays now days) == some true
   | none => false)

/-- The ledger row a successful admission of `p` appends. -/
def rowOf (now : PyDateTime) (p : SmsPayload) : Row :=
  newRowFor (admId now p) (admTs now p) ((parse_sber p.body).amount.getD 0)
    (parse_sber p.body) p

/-- The day number (date-part) of an aware instant in the reference timezone
(UTC); `none` for naive values. -/
def utcDayOrdinal (t : PyDateTime) : Option Int :=
  t.tzOffsetUs.map fun off => (t.naiveUs - off).fdiv usPerDay

/-- Modelled from the spec: the calendar-day reading of `spentToday` — "sum of
debit amounts whose day (in the reference timezone) equals the current day".
Row decoding is as in `calc_report`; only the day condition differs. -/
def calendarDayDebit (now : PyDateTime) (row : Row) : ℚ :=
  if row.length < 5 then 0
  else
    match fromisoCell (row.getD 1 .null) with
    | none => 0
    | some t =>
        match utcDayOrdinal t, utcDayOrdinal now with
        | some d1, some d2 =>
            if d1 = d2 then
              match pyFloatCell (row.getD 2 .null) with
              | none => 0
              | some amount => if row.getD 4 .null = .str "debit" then amount else 0
            else 0
        | _, _ => 0

/-- Modelled from the spec: `spentToday` over a ledger snapshot (uses the same
header handling as the report path). -/
def spentTodayCalendar (allRows : List Row) (now : PyDateTime) : Option ℚ :=
  (reportDataRows allRows).map fun rows => (rows.map (calendarDayDebit now)).sum

/-- A debit row counted by `calc_report`'s window: at least five cells, a
timestamp that parses and compares `≥ now - days·24h` without a `TypeError`,
a parseable amount, and type `"debit"`. -/
def debitCountedInWindow (now : PyDateTime) (days : Nat) (row : Row) : Bool :=
  5 ≤ row.length &&
  (match fromisoCell (row.getD 1 .null) with
   | some t => pyDateTimeGE t (pySubDays now days) == some true
   | none => false) &&
  (pyFloatCell (row.getD 2 .null)).isSome &&
  row.getD 4 .null == .str "debit"

/-- The row's stored amount (0 when unparseable; only used under
`debitCountedInWindow`). -/
def rowAmountOr0 (row : Row) : ℚ := (pyFloatCell (row.getD 2 .null)).getD 0

/-- A row `calc_report` skips entirely: too short, or timestamp unparseable
(or naive, hence a `TypeError` in the window comparison), or in-window with an
unparseable amount. -/
def rowSkipped (start : PyDateTime) (row : Row) : Bool :=
  row.length < 5 ||
  (match fromisoCell (row.getD 1 .null) with
   | none => true
   | some t =>
       match pyDateTimeGE t start with
       | none => true
       | some ge => ge && (pyFloatCell (row.getD 2 .null)).isNone)

/-- A row that is decoded and in-window but whose type is neither `"debit"`
nor `"credit"`. -/
def rowCountedNoTotal (start : PyDateTime) (row : Row) : Bool :=
  5 ≤ row.length &&
  (match fromisoCell (row.getD 1 .null) with
   | some t => pyDateTimeGE t start == some true
   | none => false) &&
  (pyFloatCell (row.getD 2 .null)).isSome &&
  !(row.getD 4 .null == .str "debit") && !(row.getD 4 .null == .str "credit")

/-- The data-row selection the specification describes for both paths:
the first row is excluded iff it equals the exact header row. -/
def specDataRows (allRows : List Row) : List Row :=
  match allRows with
  | first :: rest => if first = headerRow then rest else allRows
  | [] => []

/-! ## Helper lemmas -/

theorem addReport_zero_left (x : Report) : addReport ⟨0, 0, 0⟩ x = x := by
  simp [addReport]

theorem addReport_zero_right (x : Report) : addReport x ⟨0, 0, 0⟩ = x := by
  simp [addReport]

theorem addReport_assoc (x y z : Report) :
    addReport (addReport x y) z = addReport x (addReport y z) := by
  simp [addReport, add_assoc]

theorem foldl_addReport (st : PyDateTime) (l : List Row) :
    ∀ acc : Report, l.foldl (fun a r => addReport a (rowDelta st r)) acc =
      addReport acc (reportTotals st l) := by
  induction l with
  | nil => intro acc; simp [reportTotals, addReport_zero_right]
  | cons r l ih =>
      intro acc
      have h1 : reportTotals st (r :: l) = addReport (rowDelta st r) (reportTotals st l) := by
        simp only [reportTotals, List.foldl_cons]
        rw [ih, addReport_zero_left]
        rfl
      simp only [List.foldl_cons]
      rw [ih, h1, addReport_assoc]

theorem reportTotals_cons (st : PyDateTime) (r : Row) (l : List Row) :
    reportTotals st (r :: l) = addReport (rowDelta st r) (reportTotals st l) := by
  simp only [reportTotals, List.foldl_cons]
  rw [foldl_addReport, addReport_zero_left]
  rfl

theorem reportTotals_append (st : PyDateTime) (l1 l2 : List Row) :
    reportTotals st (l1 ++ l2) = addReport (reportTotals st l1) (reportTotals st l2) := by
  simp only [reportTotals, List.foldl_append]
  rw [foldl_addReport]
  rfl

theorem reportDataRows_append (store l : List Row) (h : store ≠ []) :
    reportDataRows (store ++ l) = (reportDataRows store).map (· ++ l) := by
  match store with
  | [] => exact absurd rfl h
  | first :: rest =>
      simp only [List.cons_append, reportDataRows]
      cases hf : first.head? with
      | none => rfl
      | some c =>
          by_cases hc : c = Cell.str "id" <;> simp [hc]

theorem calc_report_append (store l : List Row) (now : PyDateTime) (days : Nat)
    (h : store ≠ []) :
    calc_report (store ++ l) now days =
      (calc_report store now days).map
        (fun rep => addReport rep (reportTotals (pySubDays now days) l)) := by
  simp only [calc_report, reportDataRows_append store l h, Option.map_map]
  cases reportDataRows store with
  | none => rfl
  | some d => simp [reportTotals_append]

theorem webhookDataRows_append (store : List Row) (r : Row) (h : store ≠ []) :
    webhookDataRows (store ++ [r]) = webhookDataRows store ++ [r] := by
  match store with
  | [] => exact absurd rfl h
  | first :: rest =>
      by_cases hf : first = headerRow <;> simp [webhookDataRows, hf]

theorem existing_ids_append (d : List Row) (r : Row) :
    existing_ids (d ++ [r]) = existing_ids d ++ r.head?.toList := by
  simp only [existing_ids, List.filterMap_append]
  cases r <;> simp

/-- Outcome of `sms_webhook` on an allowed, fresh, parseable admission. -/
theorem sms_webhook_ok (allowed : List String) (store : List Row) (now : PyDateTime)
    (p : SmsPayload) (a : ℚ)
    (hallow : senderAllowed allowed (pyUpper (pyStrip p.sender)) = true)
    (hfresh : Cell.str (admId now p) ∉ existing_ids (webhookDataRows store))
    (hamt : (parse_sber p.body).amount = some a) :
    sms_webhook allowed store now p =
      (.ok (admId now p),
       (if store = [] then store ++ [headerRow] else store) ++
         [newRowFor (admId now p) (admTs now p) a (parse_sber p.body) p]) := by
  simp only [sms_webhook, hallow, Bool.not_true, Bool.false_eq_true, if_false]
  rw [if_neg hfresh]
  simp only [hamt]

/-- Outcome of `sms_webhook` when the id is already present. -/
theorem sms_webhook_duplicate (allowed : List String) (store : List Row)
    (now : PyDateTime) (p : SmsPayload)
    (hallow : senderAllowed allowed (pyUpper (pyStrip p.sender)) = true)
    (hdup : Cell.str (admId now p) ∈ existing_ids (webhookDataRows store)) :
    sms_webhook allowed store now p = (.duplicate (admId now p), store) := by
  simp only [sms_webhook, hallow, Bool.not_true, Bool.false_eq_true, if_false]
  rw [if_pos hdup]

/-- Outcome of `sms_webhook` when no amount can be extracted. -/
theorem sms_webhook_badRequest (allowed : List String) (store : List Row)
    (now : PyDateTime) (p : SmsPayload)
    (hallow : senderAllowed allowed (pyUpper (pyStrip p.sender)) = true)
    (hfresh : Cell.str (admId now p) ∉ existing_ids (webhookDataRows store))
    (hnone : (parse_sber p.body).amount = none) :
    sms_webhook allowed store now p = (.badRequest, store) := by
  simp only [sms_webhook, hallow, Bool.not_true, Bool.false_eq_true, if_false]
  rw [if_neg hfresh]
  simp only [hnone]

/-- The debit accumulator counts exactly the rows selected by
`debitCountedInWindow`, at their stored amounts. -/
theorem rowDelta_total_debit (now : PyDateTime) (days : Nat) (row : Row) :
    (rowDelta (pySubDays now days) row).total_debit =
      if debitCountedInWindow now days row then rowAmountOr0 row else 0 := by
  unfold rowDelta debitCountedInWindow rowAmountOr0
  by_cases hlen : row.length < 5
  · simp [hlen, Nat.not_le.mpr hlen]
  · simp only [if_neg hlen, Nat.le_of_not_lt hlen, decide_eq_true_eq]
    cases hts : fromisoCell (row.getD 1 .null) with
    | none => simp [hts]
    | some t =>
        cases hge : pyDateTimeGE t (pySubDays now days) with
        | none => simp [hts, hge]
        | some ge =>
            cases ge with
            | false => simp [hts, hge]
            | true =>
                cases ha : pyFloatCell (row.getD 2 .null) with
                | none => simp [hts, hge, ha]
                | some a =>
                    by_cases hty : row.getD 4 .null = Cell.str "debit" <;>
                      simp [hts, hge, ha, hty, Nat.le_of_not_lt hlen]

/-- A row satisfying `rowSkipped` contributes nothing at all. -/
theorem rowDelta_of_skipped (st : PyDateTime) (row : Row)
    (h : rowSkipped st row = true) : rowDelta st row = ⟨0, 0, 0⟩ := by
  unfold rowSkipped at h
  unfold rowDelta
  simp only [List.getD_eq_getElem?_getD] at h ⊢
  by_cases hlen : row.length < 5
  · simp [hlen]
  · simp only [if_neg hlen]
    cases hts : fromisoCell (row[1]?.getD Cell.null) with
    | none => simp [hts]
    | some t =>
        cases hge : pyDateTimeGE t st with
        | none => simp [hts, hge]
        | some ge =>
            cases ge with
            | false => simp [hts, hge]
            | true =>
                cases ha : pyFloatCell (row[2]?.getD Cell.null) with
                | none => simp [hts, hge, ha]
                | some a => simp [hlen, hts, hge, ha] at h

/-- An in-window row with an unrecognized type is counted in
`transactions_count` but in neither monetary total. -/
theorem rowDelta_of_noTotal (st : PyDateTime) (row : Row)
    (h : rowCountedNoTotal st row = true) : rowDelta st row = ⟨0, 0, 1⟩ := by
  unfold rowCountedNoTotal at h
  unfold rowDelta
  simp only [List.getD_eq_getElem?_getD] at h ⊢
  by_cases hlen : row.length < 5
  · exact absurd h (by simp [Nat.not_le.mpr hlen])
  · simp only [if_neg hlen]
    cases hts : fromisoCell (row[1]?.getD Cell.null) with
    | none => simp [hts] at h
    | some t =>
        cases hge : pyDateTimeGE t st with
        | none => simp [hts, hge] at h
        | some ge =>
            cases ge with
            | false => simp [hts, hge] at h
            | true =>
                cases ha : pyFloatCell (row[2]?.getD Cell.null) with
                | none => simp [hts, hge, ha] at h
                | some a =>
                    simp only [hts, hge, ha, Option.isSome_some, Bool.true_and,
                      Bool.and_eq_true, Bool.not_eq_true', beq_eq_false_iff_ne,
                      ne_eq, decide_eq_true_eq] at h
                    simp [hts, hge, ha, h.1.2, h.2]

/-- The contribution of the row appended for an admissible in-window payload. -/
theorem rowDelta_rowOf (allowed : List String) (now : PyDateTime) (days : Nat)
    (p : SmsPayload) (h : admInWindow allowed now days p = true) :
    rowDelta (pySubDays now days) (rowOf now p) =
      ⟨if (parse_sber p.body).type = "debit" then (parse_sber p.body).amount.getD 0 else 0,
       if (parse_sber p.body).type = "credit" then (parse_sber p.body).amount.getD 0 else 0,
       1⟩ := by
  unfold admInWindow at h
  simp only [Bool.and_eq_true] at h
  obtain ⟨⟨-, -⟩, hwin⟩ := h
  unfold rowDelta rowOf newRowFor
  cases hts : fromisoformat (admTs now p) with
  | none => rw [hts] at hwin; simp at hwin
  | some t =>
      rw [hts] at hwin
      simp only [beq_iff_eq] at hwin
      simp only [List.length_cons, List.getD, List.get?, fromisoCell, hts, hwin,
        pyFloatCell, List.getD_cons_succ, List.getD_cons_zero]
      norm_num
      by_cases hd : (parse_sber p.body).type = "debit" <;>
        by_cases hc : (parse_sber p.body).type = "credit" <;>
          simp [hts, hwin, hd, hc]

/-- Totals over the rows appended by admissible in-window payloads. -/
theorem reportTotals_map_rowOf (allowed : List String) (now : PyDateTime) (days : Nat)
    (ps : List SmsPayload) (h : ∀ p ∈ ps, admInWindow allowed now days p = true) :
    reportTotals (pySubDays now days) (ps.map (rowOf now)) =
      ⟨(ps.map fun p => if (parse_sber p.body).type = "debit"
          then (parse_sber p.body).amount.getD 0 else 0).sum,
       (ps.map fun p => if (parse_sber p.body).type = "credit"
          then (parse_sber p.body).amount.getD 0 else 0).sum,
       ps.length⟩ := by
  induction ps with
  | nil => rfl
  | cons p ps ih =>
      simp only [List.map_cons, reportTotals_cons]
      rw [rowDelta_rowOf allowed now days p (h p (List.mem_cons_self p ps)),
        ih fun q hq => h q (List.mem_cons_of_mem p hq)]
      simp [addReport, Nat.add_comm]

/-- The head cell of an appended admission row is its id. -/
theorem rowOf_head (now : PyDateTime) (p : SmsPayload) :
    (rowOf now p).head? = some (Cell.str (admId now p)) := rfl

/-- Sequentially admitting fresh, admissible payloads appends exactly their
rows, in order. -/
theorem runAdmissions_store (allowed : List String) (now : PyDateTime) (days : Nat)
    (ps : List SmsPayload) :
    ∀ store : List Row, store ≠ [] →
      (∀ p ∈ ps, admInWindow allowed now days p = true) →
      (ps.map (admId now)).Nodup →
      (∀ p ∈ ps, Cell.str (admId now p) ∉ existing_ids (webhookDataRows store)) →
      runAdmissions allowed now store ps = store ++ ps.map (rowOf now) := by
  induction ps with
  | nil => intro store _ _ _ _; simp [runAdmissions]
  | cons p ps ih =>
      intro store hne hadm hnodup hfresh
      have hp := hadm p (List.mem_cons_self p ps)
      unfold admInWindow at hp
      simp only [Bool.and_eq_true] at hp
      obtain ⟨⟨hsender, hisSome⟩, -⟩ := hp
      obtain ⟨a, ha⟩ := Option.isSome_iff_exists.mp hisSome
      have hrow : rowOf now p = newRowFor (admId now p) (admTs now p) a (parse_sber p.body) p := by
        simp [rowOf, ha]
      have hstep := sms_webhook_ok allowed store now p a hsender
        (hfresh p (List.mem_cons_self p ps)) ha
      rw [List.map_cons] at hnodup
      have hnd := List.nodup_cons.mp hnodup
      unfold runAdmissions
      rw [hstep]
      simp only [if_neg hne, ← hrow]
      rw [ih (store ++ [rowOf now p]) (by simp)
        (fun q hq => hadm q (List.mem_cons_of_mem p hq)) hnd.2 ?_]
      · simp
      · intro q hq
        rw [webhookDataRows_append store (rowOf now p) hne, existing_ids_append,
          rowOf_head]
        simp only [Option.toList_some, List.mem_append, List.mem_singleton, not_or]
        refine ⟨hfresh q (List.mem_cons_of_mem p hq), ?_⟩
        intro hcontra
        have hne' : admId now q ≠ admId now p := by
          intro heq
          exact hnd.1 (heq ▸ List.mem_map_of_mem (admId now) hq)
        exact hne' (Cell.str.inj hcontra)

/-- A nonempty explicit `received_at` is used verbatim as the admission
timestamp. -/
theorem admTs_of_some (now : PyDateTime) (sender body ts : String) (hts : ts ≠ "") :
    admTs now ⟨sender, body, some ts⟩ = ts := by
  simp [admTs, hts]

/-! ## The claims -/

/-- Claim C1. Admitting the same raw SMS input (same sender, same body) with the
same explicit `received_at` timestamp twice yields exactly one appended ledger
row: the first (allowed, fresh, parseable) admission appends exactly its row,
and the second admission of the identical payload derives the same
deterministic id, detects it among the stored first cells, appends nothing,
and returns the duplicate status with the store unchanged. -/
theorem C1_idempotency (allowed : List String) (store : List Row)
    (now1 now2 : PyDateTime) (sender body ts : String) (a : ℚ)
    (hts : ts ≠ "")
    (hallow : senderAllowed allowed (pyUpper (pyStrip sender)) = true)
    (hamt : (parse_sber body).amount = some a)
    (hfresh : Cell.str (make_id sender body ts) ∉ existing_ids (webhookDataRows store)) :
    sms_webhook allowed store now1 ⟨sender, body, some ts⟩ =
      (.ok (make_id sender body ts),
       (if store = [] then store ++ [headerRow] else store) ++
         [newRowFor (make_id sender body ts) ts a (parse_sber body) ⟨sender, body, some ts⟩]) ∧
    sms_webhook allowed
      ((if store = [] then store ++ [headerRow] else store) ++
        [newRowFor (make_id sender body ts) ts a (parse_sber body) ⟨sender, body, some ts⟩])
      now2 ⟨sender, body, some ts⟩ =
      (.duplicate (make_id sender body ts),
       (if store = [] then store ++ [headerRow] else store) ++
         [newRowFor (make_id sender body ts) ts a (parse_sber body) ⟨sender, body, some ts⟩]) := by
  have hid1 : admId now1 ⟨sender, body, some ts⟩ = make_id sender body ts := by
    simp [admId, admTs_of_some now1 sender body ts hts]
  have hid2 : admId now2 ⟨sender, body, some ts⟩ = make_id sender body ts := by
    simp [admId, admTs_of_some now2 sender body ts hts]
  have hbase : (if store = [] then store ++ [headerRow] else store) ≠ [] := by
    by_cases h : store = [] <;> simp [h]
  constructor
  · have hstep := sms_webhook_ok allowed store now1 ⟨sender, body, some ts⟩ a hallow
      (by rw [hid1]; exact hfresh) hamt
    rw [hid1, admTs_of_some now1 sender body ts hts] at hstep
    exact hstep
  · have hdup : Cell.str (admId now2 ⟨sender, body, some ts⟩) ∈
        existing_ids (webhookDataRows
          ((if store = [] then store ++ [headerRow] else store) ++
            [newRowFor (make_id sender body ts) ts a (parse_sber body)
              ⟨sender, body, some ts⟩])) := by
      rw [webhookDataRows_append _ _ hbase, existing_ids_append, hid2]
      simp [newRowFor]
    have hstep := sms_webhook_duplicate allowed _ now2 ⟨sender, body, some ts⟩ hallow hdup
    rw [hid2] at hstep
    exact hstep

/-- Witness for C1 at a concrete admission on an empty store. -/
theorem C1_idempotency_witness :
    (("2024-01-02T12:00:00+00:00" : String) ≠ "" ∧
     senderAllowed ["SBER"] (pyUpper (pyStrip "SBER")) = true ∧
     (parse_sber "Покупка 100р Магнит").amount = some 100 ∧
     Cell.str (make_id "SBER" "Покупка 100р Магнит" "2024-01-02T12:00:00+00:00") ∉
       existing_ids (webhookDataRows [])) ∧
    (sms_webhook ["SBER"] [] (utcInstant 2024 1 2 12 30 0 0)
        ⟨"SBER", "Покупка 100р Магнит", some "2024-01-02T12:00:00+00:00"⟩ =
      (.ok (make_id "SBER" "Покупка 100р Магнит" "2024-01-02T12:00:00+00:00"),
       (if ([] : List Row) = [] then [] ++ [headerRow] else []) ++
         [newRowFor (make_id "SBER" "Покупка 100р Магнит" "2024-01-02T12:00:00+00:00")
           "2024-01-02T12:00:00+00:00" 100 (parse_sber "Покупка 100р Магнит")
           ⟨"SBER", "Покупка 100р Магнит", some "2024-01-02T12:00:00+00:00"⟩]) ∧
     sms_webhook ["SBER"]
        ((if ([] : List Row) = [] then [] ++ [headerRow] else []) ++
          [newRowFor (make_id "SBER" "Покупка 100р Магнит" "2024-01-02T12:00:00+00:00")
            "2024-01-02T12:00:00+00:00" 100 (parse_sber "Покупка 100р Магнит")
            ⟨"SBER", "Покупка 100р Магнит", some "2024-01-02T12:00:00+00:00"⟩])
        (utcInstant 2024 1 2 12 45 0 0)
        ⟨"SBER", "Покупка 100р Магнит", some "2024-01-02T12:00:00+00:00"⟩ =
      (.duplicate (make_id "SBER" "Покупка 100р Магнит" "2024-01-02T12:00:00+00:00"),
       (if ([] : List Row) = [] then [] ++ [headerRow] else []) ++
         [newRowFor (make_id "SBER" "Покупка 100р Магнит" "2024-01-02T12:00:00+00:00")
           "2024-01-02T12:00:00+00:00" 100 (parse_sber "Покупка 100р Магнит")
           ⟨"SBER", "Покупка 100р Магнит", some "2024-01-02T12:00:00+00:00"⟩])) :=
  ⟨⟨by decide, by decide, by with_unfolding_all decide, by decide⟩,
   C1_idempotency ["SBER"] [] (utcInstant 2024 1 2 12 30 0 0) (utcInstant 2024 1 2 12 45 0 0)
     "SBER" "Покупка 100р Магнит" "2024-01-02T12:00:00+00:00" 100
     (by decide) (by decide) (by with_unfolding_all decide) (by decide)⟩

/-- The debit accumulator over a data-row list, as an explicit sum. -/
theorem reportTotals_total_debit (now : PyDateTime) (days : Nat) (rows : List Row) :
    (reportTotals (pySubDays now days) rows).total_debit =
      (rows.map fun r => if debitCountedInWindow now days r then rowAmountOr0 r else 0).sum := by
  induction rows with
  | nil => rfl
  | cons r l ih =>
      rw [reportTotals_cons]
      simp only [addReport, List.map_cons, List.sum_cons]
      rw [rowDelta_total_debit, ih]

/-- Claim C2, counterexample. The claim says a debit is counted in today's
spend iff its timestamp's date-part equals today's date-part. The code instead
uses the rolling window `ts >= now - 24h`: a debit stamped
2024-01-01T23:00:00+00:00 is counted by the `/today` report at clock
2024-01-02T12:00:00+00:00 (total 100), although its calendar day differs from
today's, so the spec's calendar-day reading yields 0. -/
theorem C2_counterexample :
    (calc_report [[Cell.str "tx1", Cell.str "2024-01-01T23:00:00+00:00", Cell.num 100,
        Cell.str "RUB", Cell.str "debit"]] (utcInstant 2024 1 2 12 0 0 0) 1).map
        Report.total_debit = some 100 ∧
    spentTodayCalendar [[Cell.str "tx1", Cell.str "2024-01-01T23:00:00+00:00", Cell.num 100,
        Cell.str "RUB", Cell.str "debit"]] (utcInstant 2024 1 2 12 0 0 0) = some 0 :=
  ⟨by with_unfolding_all decide, by with_unfolding_all decide⟩

/-- Claim C2, amended. For every ledger snapshot, clock and period, the
reported debit total sums exactly the data rows selected by the sliding
window comparison `transaction_ts >= now - days·24h` (with at least five
cells, a timestamp that parses and compares without `TypeError`, a parseable
amount, and type `"debit"`), at their stored amounts — window membership, not
calendar-day equality, decides inclusion. -/
theorem C2_window_semantics (allRows : List Row) (now : PyDateTime) (days : Nat) :
    (calc_report allRows now days).map Report.total_debit =
      (reportDataRows allRows).map fun rows =>
        (rows.map fun r => if debitCountedInWindow now days r then rowAmountOr0 r else 0).sum := by
  unfold calc_report
  cases reportDataRows allRows with
  | none => rfl
  | some rows =>
      simp only [Option.map_some']
      exact congrArg some (reportTotals_total_debit now days rows)

/-- Claim C3. Starting from a freshly initialized store (header only), a
sequence of admissible in-window admissions with pairwise distinct ids yields
a `/today` report in which the debit total is exactly the sum of the admitted
debit amounts, the credit total is 0 (with all payloads parsed as debits), and
every admission is counted exactly once. -/
theorem C3_conservation (allowed : List String) (now : PyDateTime) (ps : List SmsPayload)
    (hadm : ∀ p ∈ ps, admInWindow allowed now 1 p = true)
    (hdebit : ∀ p ∈ ps, (parse_sber p.body).type = "debit")
    (hnodup : (ps.map (admId now)).Nodup) :
    calc_report (runAdmissions allowed now [headerRow] ps) now 1 =
      some ⟨(ps.map fun p => (parse_sber p.body).amount.getD 0).sum, 0, ps.length⟩ := by
  rw [runAdmissions_store allowed now 1 ps [headerRow] (by simp) hadm hnodup
    (by intro p hp; simp [webhookDataRows, existing_ids, headerRow])]
  rw [calc_report_append [headerRow] _ now 1 (by simp)]
  have h0 : calc_report [headerRow] now 1 = some ⟨0, 0, 0⟩ := rfl
  rw [h0]
  simp only [Option.map_some']
  rw [reportTotals_map_rowOf allowed now 1 ps hadm, addReport_zero_left]
  have hd : (ps.map fun p => if (parse_sber p.body).type = "debit"
      then (parse_sber p.body).amount.getD 0 else 0) =
      ps.map fun p => (parse_sber p.body).amount.getD 0 :=
    List.map_congr_left fun p hp => by rw [if_pos (hdebit p hp)]
  have hc : ∀ x ∈ ps.map fun p => if (parse_sber p.body).type = "credit"
      then (parse_sber p.body).amount.getD 0 else 0, x = 0 := by
    intro x hx
    obtain ⟨p, hp, rfl⟩ := List.mem_map.mp hx
    simp [hdebit p hp]
  rw [hd, List.sum_eq_zero hc]

/-- Witness for C3: two debit admissions of 100 and 50 on a fresh store. -/
theorem C3_conservation_witness :
    ((∀ p ∈ [(⟨"SBER", "Покупка 100р", some "2024-01-02T11:00:00+00:00"⟩ : SmsPayload),
        ⟨"SBER", "Оплата 50р", some "2024-01-02T11:30:00+00:00"⟩],
        admInWindow ["SBER"] (utcInstant 2024 1 2 12 0 0 0) 1 p = true) ∧
     (∀ p ∈ [(⟨"SBER", "Покупка 100р", some "2024-01-02T11:00:00+00:00"⟩ : SmsPayload),
        ⟨"SBER", "Оплата 50р", some "2024-01-02T11:30:00+00:00"⟩],
        (parse_sber p.body).type = "debit") ∧
     ([(⟨"SBER", "Покупка 100р", some "2024-01-02T11:00:00+00:00"⟩ : SmsPayload),
        ⟨"SBER", "Оплата 50р", some "2024-01-02T11:30:00+00:00"⟩].map
          (admId (utcInstant 2024 1 2 12 0 0 0))).Nodup) ∧
    calc_report (runAdmissions ["SBER"] (utcInstant 2024 1 2 12 0 0 0) [headerRow]
        [⟨"SBER", "Покупка 100р", some "2024-01-02T11:00:00+00:00"⟩,
         ⟨"SBER", "Оплата 50р", some "2024-01-02T11:30:00+00:00"⟩])
      (utcInstant 2024 1 2 12 0 0 0) 1 =
      some ⟨([(⟨"SBER", "Покупка 100р", some "2024-01-02T11:00:00+00:00"⟩ : SmsPayload),
          ⟨"SBER", "Оплата 50р", some "2024-01-02T11:30:00+00:00"⟩].map
            fun p => (parse_sber p.body).amount.getD 0).sum, 0,
        [(⟨"SBER", "Покупка 100р", some "2024-01-02T11:00:00+00:00"⟩ : SmsPayload),
          ⟨"SBER", "Оплата 50р", some "2024-01-02T11:30:00+00:00"⟩].length⟩ :=
  ⟨⟨by with_unfolding_all decide, by decide, by decide⟩,
   C3_conservation ["SBER"] (utcInstant 2024 1 2 12 0 0 0)
     [⟨"SBER", "Покупка 100р", some "2024-01-02T11:00:00+00:00"⟩,
      ⟨"SBER", "Оплата 50р", some "2024-01-02T11:30:00+00:00"⟩]
     (by with_unfolding_all decide) (by decide) (by decide)⟩

/-- Claim C4. When no numeric amount can be extracted from the SMS body, a
non-duplicate allowed admission is rejected with HTTP 400 and the ledger is
left untouched. -/
theorem C4_no_amount_rejected (allowed : List String) (store : List Row)
    (now : PyDateTime) (p : SmsPayload)
    (hallow : senderAllowed allowed (pyUpper (pyStrip p.sender)) = true)
    (hfresh : Cell.str (admId now p) ∉ existing_ids (webhookDataRows store))
    (hnone : (parse_sber p.body).amount = none) :
    sms_webhook allowed store now p = (.badRequest, store) :=
  sms_webhook_badRequest allowed store now p hallow hfresh hnone

/-- Witness for C4: a body with no digits on a header-only store. -/
theorem C4_no_amount_rejected_witness :
    (senderAllowed ["SBER"] (pyUpper (pyStrip "SBER")) = true ∧
     Cell.str (admId (utcInstant 2024 1 2 12 0 0 0)
        ⟨"SBER", "привет без числа", some "2024-01-02T12:00:00+00:00"⟩) ∉
       existing_ids (webhookDataRows [headerRow]) ∧
     (parse_sber "привет без числа").amount = none) ∧
    sms_webhook ["SBER"] [headerRow] (utcInstant 2024 1 2 12 0 0 0)
        ⟨"SBER", "привет без числа", some "2024-01-02T12:00:00+00:00"⟩ =
      (.badRequest, [headerRow]) :=
  ⟨⟨by decide, by decide, by decide⟩,
   C4_no_amount_rejected ["SBER"] [headerRow] (utcInstant 2024 1 2 12 0 0 0)
     ⟨"SBER", "привет без числа", some "2024-01-02T12:00:00+00:00"⟩
     (by decide) (by decide) (by decide)⟩

theorem addReport_comm (x y : Report) : addReport x y = addReport y x := by
  simp [addReport, add_comm]

/-- Inserting a skipped row at a non-head position leaves the report
unchanged. -/
theorem calc_report_skip_insert (r0 : Row) (l1 l2 : List Row) (r : Row)
    (now : PyDateTime) (days : Nat)
    (hskip : rowSkipped (pySubDays now days) r = true) :
    calc_report ((r0 :: l1) ++ r :: l2) now days = calc_report ((r0 :: l1) ++ l2) now days := by
  rw [calc_report_append (r0 :: l1) (r :: l2) now days (by simp),
    calc_report_append (r0 :: l1) l2 now days (by simp),
    reportTotals_cons, rowDelta_of_skipped _ _ hskip, addReport_zero_left]

/-- The report computation succeeds whenever the first stored row (if any) is
nonempty. -/
theorem calc_report_isSome (r0 : Row) (l : List Row) (now : PyDateTime) (days : Nat)
    (hr0 : r0 ≠ []) : (calc_report (r0 :: l) now days).isSome = true := by
  match r0, hr0 with
  | c :: cs, _ => simp [calc_report, reportDataRows]

/-- Claim C5, counterexample. The aggregation is not exception-free for every
row list: an empty first row makes the header sniff `all_rows[0][0]` raise an
uncaught `IndexError` (modelled as `none`). And a decodable in-window row
whose type is neither `"debit"` nor `"credit"` is not "counted nowhere": it
increments the transaction count. -/
theorem C5_counterexample :
    calc_report [[]] (utcInstant 2024 1 2 12 0 0 0) 1 = none ∧
    calc_report [[Cell.str "tx1", Cell.str "2024-01-02T10:00:00+00:00", Cell.num 5,
        Cell.str "RUB", Cell.str "loan"]] (utcInstant 2024 1 2 12 0 0 0) 1 =
      some ⟨0, 0, 1⟩ :=
  ⟨rfl, by with_unfolding_all decide⟩

/-- Claim C5, amended. Provided the store's first row is nonempty, the
aggregation completes; a data row (at a non-head position) that is too short,
or whose timestamp or in-window amount cannot be parsed (including naive
timestamps, whose comparison raises `TypeError`), is skipped and contributes
to no accumulator; an in-window row with an unrecognized type contributes to
the transaction count only. -/
theorem C5_malformed_rows (r0 : Row) (l1 l2 : List Row) (r r' : Row)
    (now : PyDateTime) (days : Nat)
    (hr0 : r0 ≠ [])
    (hskip : rowSkipped (pySubDays now days) r = true)
    (hnt : rowCountedNoTotal (pySubDays now days) r' = true) :
    calc_report ((r0 :: l1) ++ r :: l2) now days = calc_report ((r0 :: l1) ++ l2) now days ∧
    (calc_report ((r0 :: l1) ++ l2) now days).isSome = true ∧
    calc_report ((r0 :: l1) ++ r' :: l2) now days =
      (calc_report ((r0 :: l1) ++ l2) now days).map fun rep => addReport rep ⟨0, 0, 1⟩ := by
  refine ⟨calc_report_skip_insert r0 l1 l2 r now days hskip, ?_, ?_⟩
  · rw [show (r0 :: l1) ++ l2 = r0 :: (l1 ++ l2) from rfl]
    exact calc_report_isSome r0 (l1 ++ l2) now days hr0
  · rw [calc_report_append (r0 :: l1) (r' :: l2) now days (by simp),
      calc_report_append (r0 :: l1) l2 now days (by simp),
      reportTotals_cons, rowDelta_of_noTotal _ _ hnt]
    cases calc_report (r0 :: l1) now days with
    | none => rfl
    | some rep =>
        simp only [Option.map_some']
        rw [addReport_comm ⟨0, 0, 1⟩ (reportTotals (pySubDays now days) l2),
          ← addReport_assoc]

/-- Witness for C5: an empty row inserted into a two-row store, and an
in-window `"loan"` row. -/
theorem C5_malformed_rows_witness :
    (([Cell.str "a"] : Row) ≠ [] ∧
     rowSkipped (pySubDays (utcInstant 2024 1 2 12 0 0 0) 1) [] = true ∧
     rowCountedNoTotal (pySubDays (utcInstant 2024 1 2 12 0 0 0) 1)
       [Cell.str "tx1", Cell.str "2024-01-02T10:00:00+00:00", Cell.num 5,
        Cell.str "RUB", Cell.str "loan"] = true) ∧
    (calc_report ([[Cell.str "a"]] ++ [] :: []) (utcInstant 2024 1 2 12 0 0 0) 1 =
       calc_report ([[Cell.str "a"]] ++ []) (utcInstant 2024 1 2 12 0 0 0) 1 ∧
     (calc_report ([[Cell.str "a"]] ++ []) (utcInstant 2024 1 2 12 0 0 0) 1).isSome = true ∧
     calc_report ([[Cell.str "a"]] ++ [Cell.str "tx1", Cell.str "2024-01-02T10:00:00+00:00",
         Cell.num 5, Cell.str "RUB", Cell.str "loan"] :: []) (utcInstant 2024 1 2 12 0 0 0) 1 =
       (calc_report ([[Cell.str "a"]] ++ []) (utcInstant 2024 1 2 12 0 0 0) 1).map
         fun rep => addReport rep ⟨0, 0, 1⟩) :=
  ⟨⟨by decide, by decide, by with_unfolding_all decide⟩,
   C5_malformed_rows [Cell.str "a"] [] [] []
     [Cell.str "tx1", Cell.str "2024-01-02T10:00:00+00:00", Cell.num 5,
      Cell.str "RUB", Cell.str "loan"]
     (utcInstant 2024 1 2 12 0 0 0) 1
     (by decide) (by decide) (by with_unfolding_all decide)⟩

/-- Claim C6, counterexample. A body that yields an amount but matches neither
the debit nor the credit keyword alternation is appended with type
`"undefined"`, which is outside `{"debit", "credit"}`: body `"500р"` is
admitted (status ok) and the stored type cell of the appended row is
`"undefined"`. -/
theorem C6_counterexample :
    ((sms_webhook ["SBER"] [headerRow] (utcInstant 2024 1 2 12 0 0 0)
        ⟨"SBER", "500р", some "2024-01-02T12:00:00+00:00"⟩).2.getLast?.getD []).getD 4
      Cell.null = Cell.str "undefined" ∧
    (sms_webhook ["SBER"] [headerRow] (utcInstant 2024 1 2 12 0 0 0)
        ⟨"SBER", "500р", some "2024-01-02T12:00:00+00:00"⟩).1 =
      .ok (make_id "SBER" "500р" "2024-01-02T12:00:00+00:00") :=
  ⟨by with_unfolding_all decide, by decide⟩

/-- Claim C6, amended. Every appended row stores
`(parse_sber body).type` as its type cell, and that type is one of
`{"debit", "credit", "undefined"}`: `"debit"` iff a debit keyword occurs
(case-insensitively) in the body, `"credit"` iff no debit keyword but a credit
keyword occurs, and `"undefined"` otherwise. -/
theorem C6_type_values (allowed : List String) (store : List Row)
    (now : PyDateTime) (p : SmsPayload) (a : ℚ)
    (hallow : senderAllowed allowed (pyUpper (pyStrip p.sender)) = true)
    (hfresh : Cell.str (admId now p) ∉ existing_ids (webhookDataRows store))
    (hamt : (parse_sber p.body).amount = some a) :
    ((sms_webhook allowed store now p).2.getLast?.getD []).getD 4 Cell.null =
      Cell.str (parse_sber p.body).type ∧
    ((parse_sber p.body).type = "debit" ↔ hasKeywordCI debitKeywords p.body = true) ∧
    ((parse_sber p.body).type = "credit" ↔
      (hasKeywordCI debitKeywords p.body = false ∧
       hasKeywordCI creditKeywords p.body = true)) ∧
    ((parse_sber p.body).type = "debit" ∨ (parse_sber p.body).type = "credit" ∨
     (parse_sber p.body).type = "undefined") := by
  have hty : (parse_sber p.body).type =
      (if hasKeywordCI debitKeywords p.body then "debit"
       else if hasKeywordCI creditKeywords p.body then "credit" else "undefined") := rfl
  refine ⟨?_, ?_, ?_, ?_⟩
  · rw [sms_webhook_ok allowed store now p a hallow hfresh hamt]
    simp [newRowFor, List.getLast?_concat]
  · rw [hty]
    by_cases hd : hasKeywordCI debitKeywords p.body <;>
      by_cases hc : hasKeywordCI creditKeywords p.body <;> simp [hd, hc]
  · rw [hty]
    by_cases hd : hasKeywordCI debitKeywords p.body <;>
      by_cases hc : hasKeywordCI creditKeywords p.body <;> simp [hd, hc]
  · rw [hty]
    by_cases hd : hasKeywordCI debitKeywords p.body <;>
      by_cases hc : hasKeywordCI creditKeywords p.body <;> simp [hd, hc]

/-- Witness for C6 at a concrete credit-typed admission. -/
theorem C6_type_values_witness :
    (senderAllowed ["SBER"] (pyUpper (pyStrip "SBER")) = true ∧
     Cell.str (admId (utcInstant 2024 1 2 12 0 0 0)
        ⟨"SBER", "Зачислен возврат 70р", some "2024-01-02T12:00:00+00:00"⟩) ∉
       existing_ids (webhookDataRows [headerRow]) ∧
     (parse_sber "Зачислен возврат 70р").amount = some 70) ∧
    (((sms_webhook ["SBER"] [headerRow] (utcInstant 2024 1 2 12 0 0 0)
         ⟨"SBER", "Зачислен возврат 70р", some "2024-01-02T12:00:00+00:00"⟩).2.getLast?.getD
        []).getD 4 Cell.null = Cell.str (parse_sber "Зачислен возврат 70р").type ∧
     ((parse_sber "Зачислен возврат 70р").type = "debit" ↔
       hasKeywordCI debitKeywords "Зачислен возврат 70р" = true) ∧
     ((parse_sber "Зачислен возврат 70р").type = "credit" ↔
       (hasKeywordCI debitKeywords "Зачислен возврат 70р" = false ∧
        hasKeywordCI creditKeywords "Зачислен возврат 70р" = true)) ∧
     ((parse_sber "Зачислен возврат 70р").type = "debit" ∨
      (parse_sber "Зачислен возврат 70р").type = "credit" ∨
      (parse_sber "Зачислен возврат 70р").type = "undefined")) :=
  ⟨⟨by decide, by decide, by with_unfolding_all decide⟩,
   C6_type_values ["SBER"] [headerRow] (utcInstant 2024 1 2 12 0 0 0)
     ⟨"SBER", "Зачислен возврат 70р", some "2024-01-02T12:00:00+00:00"⟩ 70
     (by decide) (by decide) (by with_unfolding_all decide)⟩

/-- Claim C7, counterexample. The claim says only an exact header first row is
excluded from data processing on both paths. But the report path sniffs only
the first cell: a first row `["id", "x"]` is not the header — the spec's
selection (and the webhook path) keeps it as data — yet the report path drops
it. -/
theorem C7_counterexample :
    specDataRows [[Cell.str "id", Cell.str "x"]] = [[Cell.str "id", Cell.str "x"]] ∧
    webhookDataRows [[Cell.str "id", Cell.str "x"]] = [[Cell.str "id", Cell.str "x"]] ∧
    reportDataRows [[Cell.str "id", Cell.str "x"]] = some [] ∧
    [Cell.str "id", Cell.str "x"] ≠ headerRow := by
  refine ⟨rfl, rfl, rfl, by decide⟩

/-- Claim C7, amended. The two paths sniff the header differently: the
duplicate-detection path excludes the first row iff it equals the full header,
the report path iff its first cell equals `"id"` (raising on an empty first
row). Both treat all rows as data whenever the first row's first cell differs
from `"id"` (which rules out the exact header as well). -/
theorem C7_header_handling (r0 : Row) (rest : List Row)
    (h : r0.head? ≠ some (Cell.str "id")) (hr0 : r0 ≠ []) :
    webhookDataRows (r0 :: rest) = r0 :: rest ∧
    reportDataRows (r0 :: rest) = some (r0 :: rest) := by
  constructor
  · have hne : r0 ≠ headerRow := by
      intro e
      exact h (e ▸ rfl)
    simp [webhookDataRows, hne]
  · match r0, h, hr0 with
    | c :: cs, h, _ =>
        have hc : ¬(c = Cell.str "id") := by
          intro e
          exact h (by simp [e])
        simp [reportDataRows, hc]

/-- Witness for C7 at the concrete first row `["x"]`. -/
theorem C7_header_handling_witness :
    (([Cell.str "x"] : Row).head? ≠ some (Cell.str "id") ∧ ([Cell.str "x"] : Row) ≠ []) ∧
    (webhookDataRows [[Cell.str "x"], [Cell.str "y"]] = [[Cell.str "x"], [Cell.str "y"]] ∧
     reportDataRows [[Cell.str "x"], [Cell.str "y"]] =
       some [[Cell.str "x"], [Cell.str "y"]]) :=
  ⟨⟨by decide, by decide⟩,
   C7_header_handling [Cell.str "x"] [[Cell.str "y"]] (by decide) (by decide)⟩

/-- Claim C8. When the payload omits `received_at`, the admission timestamp is
the handling-time clock reading, so two otherwise-identical submissions
handled at different instants derive different ids (their digests differing)
and are both appended; neither is treated as a duplicate of the other. -/
theorem C8_clock_timestamp_ids (allowed : List String) (store : List Row)
    (t1 t2 : PyDateTime) (sender body : String) (a : ℚ)
    (hallow : senderAllowed allowed (pyUpper (pyStrip sender)) = true)
    (hamt : (parse_sber body).amount = some a)
    (hfr1 : Cell.str (make_id sender body (pyIsoformat t1)) ∉
      existing_ids (webhookDataRows store))
    (hfr2 : Cell.str (make_id sender body (pyIsoformat t2)) ∉
      existing_ids (webhookDataRows store))
    (hne : make_id sender body (pyIsoformat t1) ≠ make_id sender body (pyIsoformat t2)) :
    sms_webhook allowed store t1 ⟨sender, body, none⟩ =
      (.ok (make_id sender body (pyIsoformat t1)),
       (if store = [] then store ++ [headerRow] else store) ++
         [newRowFor (make_id sender body (pyIsoformat t1)) (pyIsoformat t1) a
           (parse_sber body) ⟨sender, body, none⟩]) ∧
    sms_webhook allowed
      ((if store = [] then store ++ [headerRow] else store) ++
        [newRowFor (make_id sender body (pyIsoformat t1)) (pyIsoformat t1) a
          (parse_sber body) ⟨sender, body, none⟩]) t2 ⟨sender, body, none⟩ =
      (.ok (make_id sender body (pyIsoformat t2)),
       (if store = [] then store ++ [headerRow] else store) ++
         [newRowFor (make_id sender body (pyIsoformat t1)) (pyIsoformat t1) a
            (parse_sber body) ⟨sender, body, none⟩,
          newRowFor (make_id sender body (pyIsoformat t2)) (pyIsoformat t2) a
            (parse_sber body) ⟨sender, body, none⟩]) := by
  have hid1 : admId t1 ⟨sender, body, none⟩ = make_id sender body (pyIsoformat t1) := rfl
  have hid2 : admId t2 ⟨sender, body, none⟩ = make_id sender body (pyIsoformat t2) := rfl
  have hbase : (if store = [] then store ++ [headerRow] else store) ≠ [] := by
    by_cases h : store = [] <;> simp [h]
  have hwh : webhookDataRows (if store = [] then store ++ [headerRow] else store) =
      webhookDataRows store := by
    by_cases h : store = [] <;> simp [h, webhookDataRows]
  constructor
  · exact sms_webhook_ok allowed store t1 ⟨sender, body, none⟩ a hallow hfr1 hamt
  · have hfr2' : Cell.str (admId t2 ⟨sender, body, none⟩) ∉
        existing_ids (webhookDataRows
          ((if store = [] then store ++ [headerRow] else store) ++
            [newRowFor (make_id sender body (pyIsoformat t1)) (pyIsoformat t1) a
              (parse_sber body) ⟨sender, body, none⟩])) := by
      rw [webhookDataRows_append _ _ hbase, existing_ids_append, hwh, hid2]
      simp only [newRowFor, List.head?_cons, Option.toList_some, List.mem_append,
        List.mem_singleton, not_or]
      exact ⟨hfr2, fun e => hne.symm (Cell.str.inj e)⟩
    have hstep := sms_webhook_ok allowed _ t2 ⟨sender, body, none⟩ a hallow hfr2' hamt
    rw [hid2] at hstep
    rw [hstep, if_neg (by simp [hbase])]
    simp only [List.append_assoc, List.singleton_append]
    rfl

/-- Witness for C8 at two clock readings one second apart. -/
theorem C8_clock_timestamp_ids_witness :
    (senderAllowed ["SBER"] (pyUpper (pyStrip "SBER")) = true ∧
     (parse_sber "Оплата 10р").amount = some 10 ∧
     Cell.str (make_id "SBER" "Оплата 10р"
        (pyIsoformat (utcInstant 2024 1 2 12 0 0 0))) ∉
       existing_ids (webhookDataRows []) ∧
     Cell.str (make_id "SBER" "Оплата 10р"
        (pyIsoformat (utcInstant 2024 1 2 12 0 1 0))) ∉
       existing_ids (webhookDataRows []) ∧
     make_id "SBER" "Оплата 10р" (pyIsoformat (utcInstant 2024 1 2 12 0 0 0)) ≠
       make_id "SBER" "Оплата 10р" (pyIsoformat (utcInstant 2024 1 2 12 0 1 0))) ∧
    (sms_webhook ["SBER"] [] (utcInstant 2024 1 2 12 0 0 0) ⟨"SBER", "Оплата 10р", none⟩ =
      (.ok (make_id "SBER" "Оплата 10р" (pyIsoformat (utcInstant 2024 1 2 12 0 0 0))),
       (if ([] : List Row) = [] then [] ++ [headerRow] else []) ++
         [newRowFor (make_id "SBER" "Оплата 10р" (pyIsoformat (utcInstant 2024 1 2 12 0 0 0)))
           (pyIsoformat (utcInstant 2024 1 2 12 0 0 0)) 10 (parse_sber "Оплата 10р")
           ⟨"SBER", "Оплата 10р", none⟩]) ∧
     sms_webhook ["SBER"]
       ((if ([] : List Row) = [] then [] ++ [headerRow] else []) ++
         [newRowFor (make_id "SBER" "Оплата 10р" (pyIsoformat (utcInstant 2024 1 2 12 0 0 0)))
           (pyIsoformat (utcInstant 2024 1 2 12 0 0 0)) 10 (parse_sber "Оплата 10р")
           ⟨"SBER", "Оплата 10р", none⟩])
       (utcInstant 2024 1 2 12 0 1 0) ⟨"SBER", "Оплата 10р", none⟩ =
      (.ok (make_id "SBER" "Оплата 10р" (pyIsoformat (utcInstant 2024 1 2 12 0 1 0))),
       (if ([] : List Row) = [] then [] ++ [headerRow] else []) ++
         [newRowFor (make_id "SBER" "Оплата 10р" (pyIsoformat (utcInstant 2024 1 2 12 0 0 0)))
            (pyIsoformat (utcInstant 2024 1 2 12 0 0 0)) 10 (parse_sber "Оплата 10р")
            ⟨"SBER", "Оплата 10р", none⟩,
          newRowFor (make_id "SBER" "Оплата 10р" (pyIsoformat (utcInstant 2024 1 2 12 0 1 0)))
            (pyIsoformat (utcInstant 2024 1 2 12 0 1 0)) 10 (parse_sber "Оплата 10р")
            ⟨"SBER", "Оплата 10р", none⟩])) :=
  ⟨⟨by decide, by with_unfolding_all decide, by decide, by decide, by decide⟩,
   C8_clock_timestamp_ids ["SBER"] [] (utcInstant 2024 1 2 12 0 0 0)
     (utcInstant 2024 1 2 12 0 1 0) "SBER" "Оплата 10р" 10
     (by decide) (by with_unfolding_all decide) (by decide) (by decide) (by decide)⟩

/-- Claim C9. A stored row whose timestamp string parses as a timezone-naive
datetime is silently excluded from every report total: the `>=` comparison
against the timezone-aware window start raises `TypeError`, which the loop
catches, so the row counts toward neither monetary total nor the transaction
count, for every period length. -/
theorem C9_naive_timestamp_skipped (r0 : Row) (l1 l2 : List Row) (row : Row)
    (s : String) (t : PyDateTime) (now : PyDateTime) (days : Nat)
    (hcell : row.getD 1 Cell.null = Cell.str s)
    (hparse : fromisoformat s = some t)
    (hnaive : t.tzOffsetUs = none)
    (hnow : now.tzOffsetUs.isSome = true) :
    calc_report ((r0 :: l1) ++ row :: l2) now days = calc_report ((r0 :: l1) ++ l2) now days := by
  apply calc_report_skip_insert
  unfold rowSkipped
  by_cases hlen : row.length < 5
  · simp [hlen]
  · obtain ⟨off, hoff⟩ := Option.isSome_iff_exists.mp hnow
    have hstart : (pySubDays now days).tzOffsetUs = some off := by
      simp [pySubDays, hoff]
    have hcell' : row[1]?.getD Cell.null = Cell.str s := by
      rw [← List.getD_eq_getElem?_getD]
      exact hcell
    simp [hlen, fromisoCell, hcell, hcell', hparse, pyDateTimeGE, hnaive, hstart]

/-- Witness for C9: a naive-timestamp debit row between two rows. -/
theorem C9_naive_timestamp_skipped_witness :
    (([Cell.str "tx0", Cell.str "2024-01-02T10:00:00+00:00", Cell.num 1, Cell.str "RUB",
        Cell.str "debit"] : Row).getD 1 Cell.null = Cell.str "2024-01-02T10:00:00+00:00" ∧
     ([Cell.str "txN", Cell.str "2024-01-02T11:00:00", Cell.num 7, Cell.str "RUB",
        Cell.str "debit"] : Row).getD 1 Cell.null = Cell.str "2024-01-02T11:00:00" ∧
     fromisoformat "2024-01-02T11:00:00" =
       some ⟨(dateOrdinal 2024 1 2 : Int) * usPerDay + 39600000000, none⟩ ∧
     (⟨(dateOrdinal 2024 1 2 : Int) * usPerDay + 39600000000,
        (none : Option Int)⟩ : PyDateTime).tzOffsetUs = none ∧
     (utcInstant 2024 1 2 12 0 0 0).tzOffsetUs.isSome = true) ∧
    calc_report (([[Cell.str "tx0", Cell.str "2024-01-02T10:00:00+00:00", Cell.num 1,
        Cell.str "RUB", Cell.str "debit"]] : List Row) ++
        [Cell.str "txN", Cell.str "2024-01-02T11:00:00", Cell.num 7, Cell.str "RUB",
         Cell.str "debit"] :: []) (utcInstant 2024 1 2 12 0 0 0) 1 =
      calc_report ([[Cell.str "tx0", Cell.str "2024-01-02T10:00:00+00:00", Cell.num 1,
        Cell.str "RUB", Cell.str "debit"]] ++ []) (utcInstant 2024 1 2 12 0 0 0) 1 :=
  ⟨⟨by decide, by decide, by decide, by decide, by decide⟩,
   C9_naive_timestamp_skipped
     [Cell.str "tx0", Cell.str "2024-01-02T10:00:00+00:00", Cell.num 1, Cell.str "RUB",
      Cell.str "debit"] [] []
     [Cell.str "txN", Cell.str "2024-01-02T11:00:00", Cell.num 7, Cell.str "RUB",
      Cell.str "debit"]
     "2024-01-02T11:00:00" ⟨(dateOrdinal 2024 1 2 : Int) * usPerDay + 39600000000, none⟩
     (utcInstant 2024 1 2 12 0 0 0) 1
     (by decide) (by decide) (by decide) (by decide)⟩

/-- Claim C10. When the `ALLOWED_SENDERS` environment variable is unset or set
to the empty string, the allow-list is `[""]`; the empty entry is filtered
out, the `any(...)` is over an empty generator, and every `POST /sms` request
is rejected with HTTP 403 with the ledger untouched — for every store, clock
and payload. -/
theorem C10_empty_allowlist_forbids (store : List Row) (now : PyDateTime)
    (p : SmsPayload) :
    sms_webhook (allowedSendersOfEnv none) store now p = (.forbidden, store) ∧
    sms_webhook (allowedSendersOfEnv (some "")) store now p = (.forbidden, store) := by
  have e1 : allowedSendersOfEnv none = [""] := rfl
  have e2 : allowedSendersOfEnv (some "") = [""] := rfl
  have h : senderAllowed [""] (pyUpper (pyStrip p.sender)) = false := by
    simp [senderAllowed]
  refine ⟨?_, ?_⟩ <;> simp [sms_webhook, e1, e2, h]

end SmsTracker
